import Mathlib

/-!
Shallow embedding of `caikit_embeddings/modules/embedding_retrieval/embedding.py`
(the `TextEmbedding` caikit module) and proofs of the specification claims.

Modelling conventions:
* Floating-point embedding values are modelled as integers (`ℤ`).
* The sentence-transformers model is an abstract handle carrying the
  tokenizer's token-count function, the configured maximum sequence length,
  and the opaque per-text embedding function; batch encoding is the map of
  the single-text encoding over the batch.
* Library primitives that need real square roots (`cos_sim`,
  `normalize_embeddings`) are passed in as opaque function parameters, as
  the spec treats them as provided black boxes; `dot_score` and
  `semantic_search` (score, sort descending, take top-k) are modelled
  concretely.
* Python exceptions become `Except Err`; each operation additionally
  returns the list of texts passed to the encoder, so that "the embedding
  function is never invoked" is a statement about that log being empty.
* The filesystem is a set of existing paths; `os.path.abspath` is modelled
  as the identity on the stripped path and `os.path.join` as `a ++ "/" ++ b`.
-/

namespace CaikitEmbeddings

/-- Embedding vectors: ordered sequences of numbers (floats in the source). -/
abbrev Vec : Type := List ℤ

/-- Errors raised through the caikit `error_handler`, tagged with the kind of
check and the log-code id embedded in the message. -/
inductive Err : Type where
  | valueCheck (id : String)
  | typeCheck (id : String)
  | dirCheck (id : String)
  | fileExists (path : String)
  | exn (msg : String)
  deriving DecidableEq

/-- Abstract state of a loaded `SentenceTransformer`: `tokenCount text` is
`len(self.model[0].tokenizer(text).input_ids)`, `maxSeqLength` is
`self.model.max_seq_length`, and `encode` is the opaque embedding function. -/
structure SentenceTransformer : Type where
  tokenCount : String → Nat
  maxSeqLength : Nat
  encode : String → Vec

/-- The caikit module wraps exactly one model handle (`self.model`). -/
structure TextEmbedding : Type where
  model : SentenceTransformer

/-- Data model `Vector1D`: one embedding vector. -/
structure Vector1D : Type where
  data : Vec
  deriving DecidableEq

/-- Data model `ListOfVector1D`: the result of `run_embeddings`. -/
structure ListOfVector1D : Type where
  results : List Vector1D
  deriving DecidableEq

/-- Data model `SentenceScores`: one similarity score per candidate. -/
structure SentenceScores : Type where
  scores : List ℤ
  deriving DecidableEq

/-- Data model `SentenceListScores`: one `SentenceScores` per source. -/
structure SentenceListScores : Type where
  results : List SentenceScores
  deriving DecidableEq

/-- A document record (`JsonDict`) restricted to string-valued fields, which
is all the rerank path reads; lookup is first-match, as in a Python dict. -/
abbrev SrcDoc : Type := List (String × String)

/-- Data model `RerankScore`: one reranked hit. -/
structure RerankScore : Type where
  index : Nat
  score : ℤ
  document : Option SrcDoc
  text : Option String
  deriving DecidableEq

/-- Data model `RerankQueryResult`: hits for one query. -/
structure RerankQueryResult : Type where
  query : Option String
  scores : List RerankScore
  deriving DecidableEq

/-- Data model `RerankPrediction`: one `RerankQueryResult` per query. -/
structure RerankPrediction : Type where
  results : List RerankQueryResult
  deriving DecidableEq

instance {ε α : Type} [DecidableEq ε] [DecidableEq α] :
    DecidableEq (Except ε α) := fun a b =>
  match a, b with
  | .ok x, .ok y =>
    if h : x = y then .isTrue (by rw [h]) else .isFalse (by simpa using h)
  | .error x, .error y =>
    if h : x = y then .isTrue (by rw [h]) else .isFalse (by simpa using h)
  | .ok _, .error _ => .isFalse (by simp)
  | .error _, .ok _ => .isFalse (by simp)

/-- The log-code of the truncation `value_check` in `_prevent_truncation`. -/
def truncId : String := "<NLP08391926E>"

/-- The truncation error raised by `_prevent_truncation`. -/
def truncErr : Err := .valueCheck truncId

/-- `TextEmbedding._prevent_truncation`: tokenize `text`, compare the token
count with the model's maximum sequence length, and raise a value-check
error when the limit is exceeded. -/
def prevent_truncation (m : SentenceTransformer) (text : String) :
    Except Err Unit :=
  if m.tokenCount text ≤ m.maxSeqLength then .ok () else .error truncErr

/-- The `for text in ...: self._prevent_truncation(text)` loops: check each
text in order and raise at the first failure. -/
def check_all (m : SentenceTransformer) : List String → Except Err Unit
  | [] => .ok ()
  | t :: ts =>
    match prevent_truncation m t with
    | .error e => .error e
    | .ok () => check_all m ts

/-- `TextEmbedding.run_embedding`: truncation-check the text, then encode it.
The second component logs the texts handed to the encoder. -/
def run_embedding (m : SentenceTransformer) (text : String) :
    Except Err Vector1D × List String :=
  match prevent_truncation m text with
  | .error e => (.error e, [])
  | .ok () => (.ok ⟨m.encode text⟩, [text])

/-- `TextEmbedding.run_embeddings`: a bare string is promoted to a
one-element list; every element is truncation-checked, then the batch is
encoded and wrapped, preserving order. -/
def run_embeddings (m : SentenceTransformer) (texts : String ⊕ List String) :
    Except Err ListOfVector1D × List String :=
  let texts : List String :=
    match texts with
    | .inl s => [s]
    | .inr l => l
  match check_all m texts with
  | .error e => (.error e, [])
  | .ok () => (.ok ⟨texts.map fun t => ⟨m.encode t⟩⟩, texts)

/-- The `cos_sim(a, b)` matrix of the sentence-transformers library, given an
opaque row-level cosine function: row `i`, column `j` is `cosSim aᵢ bⱼ`. -/
def cos_sim_rows (cosSim : Vec → Vec → ℤ) (srcs cands : List Vec) :
    List (List ℤ) :=
  srcs.map fun s => cands.map fun c => cosSim s c

/-- `TextEmbedding.run_sentence_similarity`: truncation-check the source and
every candidate, encode the source alone and the candidates as a batch, and
return row 0 of the cosine-similarity matrix. -/
def run_sentence_similarity (cosSim : Vec → Vec → ℤ)
    (m : SentenceTransformer) (source_sentence : String)
    (sentences : List String) : Except Err SentenceScores × List String :=
  match prevent_truncation m source_sentence with
  | .error e => (.error e, [])
  | .ok () =>
    match check_all m sentences with
    | .error e => (.error e, [])
    | .ok () =>
      let source_embedding := m.encode source_sentence
      let embeddings := sentences.map m.encode
      let res := cos_sim_rows cosSim [source_embedding] embeddings
      (.ok ⟨res.getD 0 []⟩, source_sentence :: sentences)

/-- `TextEmbedding.run_sentence_similarities`: the multi-source variant,
returning the whole cosine-similarity matrix row by row. -/
def run_sentence_similarities (cosSim : Vec → Vec → ℤ)
    (m : SentenceTransformer) (source_sentences sentences : List String) :
    Except Err SentenceListScores × List String :=
  match check_all m source_sentences with
  | .error e => (.error e, [])
  | .ok () =>
    match check_all m sentences with
    | .error e => (.error e, [])
    | .ok () =>
      let source_embeddings := source_sentences.map m.encode
      let embeddings := sentences.map m.encode
      let rows := cos_sim_rows cosSim source_embeddings embeddings
      (.ok ⟨rows.map SentenceScores.mk⟩, source_sentences ++ sentences)

/-- A semantic-search hit before fixup: the `corpus_id` and the score. -/
abbrev Hit : Type := Nat × ℤ

/-- Descending order on hits: `x` may come before `y` when `y`'s score is at
most `x`'s. -/
def hitLE (x y : Hit) : Prop := y.2 ≤ x.2

instance : DecidableRel hitLE := fun x y =>
  inferInstanceAs (Decidable (y.2 ≤ x.2))

instance : IsTotal Hit hitLE := ⟨fun x y => le_total y.2 x.2⟩

instance : IsTrans Hit hitLE := ⟨fun _ _ _ h1 h2 => le_trans h2 h1⟩

/-- The library's `dot_score` on two vectors: the dot product. -/
def dot_score (u v : Vec) : ℤ := (List.zipWith (· * ·) u v).sum

/-- All hits of one query against the document embeddings, scored with
`dot_score` and sorted by descending score. -/
def search_hits (q : Vec) (doc_embs : List Vec) : List Hit :=
  List.insertionSort hitLE (doc_embs.enum.map fun p => (p.1, dot_score q p.2))

/-- The library's `semantic_search(query_embeddings, doc_embeddings, top_k,
score_function=dot_score)`: per query, the `top_k` highest-scoring documents
in descending score order. -/
def semantic_search (q_embs doc_embs : List Vec) (top_k : Nat) :
    List (List Hit) :=
  q_embs.map fun q => (search_hits q doc_embs).take top_k

/-- The `if top_n is None or top_n < 1: top_n = len(documents)` defaulting. -/
def effective_top_n (top_n : Option Int) (ndocs : Nat) : Nat :=
  match top_n with
  | none => ndocs
  | some n => if n < 1 then ndocs else n.toNat

/-- The nested `get_text` helper of `run_rerank_queries`:
`srd.get("text") or srd.get("_text", "")` under Python truthiness of
strings (`""` is falsy). -/
def get_text (srd : SrcDoc) : String :=
  match srd.lookup "text" with
  | some s => if s = "" then (srd.lookup "_text").getD "" else s
  | none => (srd.lookup "_text").getD ""

/-- `TextEmbedding.run_rerank_queries`: early-return on empty input, default
`top_n`, extract document texts, truncation-check documents then queries,
encode and normalize both batches, run `semantic_search`, and fix up the
result records (rename `corpus_id` to `index`, optionally attach the
original document and/or the extracted text, optionally echo the query). -/
def run_rerank_queries (normalize : Vec → Vec) (m : SentenceTransformer)
    (queries : List String) (documents : List SrcDoc) (top_n : Option Int)
    (return_documents return_queries return_text : Bool) :
    Except Err RerankPrediction × List String :=
  if queries.length < 1 ∨ documents.length < 1 then (.ok ⟨[]⟩, [])
  else
    let top_n := effective_top_n top_n documents.length
    let doc_texts := documents.map get_text
    match check_all m (doc_texts ++ queries) with
    | .error e => (.error e, [])
    | .ok () =>
      let doc_embeddings := (doc_texts.map m.encode).map normalize
      let query_embeddings := (queries.map m.encode).map normalize
      let res := semantic_search query_embeddings doc_embeddings top_n
      let fix : Hit → RerankScore := fun x =>
        { index := x.1
          score := x.2
          document :=
            if return_documents then some (documents.getD x.1 []) else none
          text :=
            if return_text then some (get_text (documents.getD x.1 []))
            else none }
      let results := res.enum.map fun p =>
        RerankQueryResult.mk
          (if return_queries then some (queries.getD p.1 "") else none)
          (p.2.map fix)
      (.ok ⟨results⟩, doc_texts ++ queries)

/-- `TextEmbedding.run_rerank_query`: delegate to `run_rerank_queries` with a
one-element query list; if no per-query results come back, return a result
with an empty score list and the optionally echoed query. -/
def run_rerank_query (normalize : Vec → Vec) (m : SentenceTransformer)
    (query : String) (documents : List SrcDoc) (top_n : Option Int)
    (return_documents return_query return_text : Bool) :
    Except Err RerankQueryResult × List String :=
  match run_rerank_queries normalize m [query] documents top_n
      return_documents return_query return_text with
  | (.error e, log) => (.error e, log)
  | (.ok p, log) =>
    (.ok (p.results.getD 0
        ⟨if return_query then some query else none, []⟩), log)

/-- The backend chosen in `_optimize` for `torch.compile`. -/
inductive Backend : Type where
  | ipex
  | mps
  | inductor
  deriving DecidableEq

/-- The process-wide optimization flags of the module (`IPEX_OPTIMIZE` after
the import attempt, `USE_MPS`, `PT2_COMPILE`). -/
structure OptFlags : Type where
  ipexOptimize : Bool
  useMps : Bool
  pt2Compile : Bool
  deriving DecidableEq

/-- `TextEmbedding._optimize`: when `IPEX_OPTIMIZE`, apply `ipex.optimize`
(not guarded by any try/except) and select the `ipex` backend; otherwise
select `mps` or the default `inductor` backend. Then, when `PT2_COMPILE`,
attempt `torch.compile` and on any exception keep the uncompiled model.
`ipexFn` and `compileFn` are the two opaque, possibly-raising library
calls. -/
def optimize (flags : OptFlags)
    (ipexFn : SentenceTransformer → Except Err SentenceTransformer)
    (compileFn : SentenceTransformer → Backend → Except Err SentenceTransformer)
    (model : SentenceTransformer) : Except Err SentenceTransformer :=
  let step : Except Err (SentenceTransformer × Backend) :=
    if flags.ipexOptimize then (ipexFn model).map fun m1 => (m1, Backend.ipex)
    else if flags.useMps then .ok (model, Backend.mps)
    else .ok (model, Backend.inductor)
  match step with
  | .error e => .error e
  | .ok (model, backend) =>
    if flags.pt2Compile then
      match compileFn model backend with
      | .error _ => .ok model
      | .ok m2 => .ok m2
    else .ok model

/-- The filesystem, modelled as the set of existing paths. -/
structure FS : Type where
  paths : List String
  deriving DecidableEq

/-- `os.path.join` on one component. -/
def pathJoin (a b : String) : String := a ++ "/" ++ b

/-- A caikit `ModuleConfig`: its directory and its key-value entries. -/
structure ModuleConfig : Type where
  model_path : String
  entries : List (String × String)
  deriving DecidableEq

/-- `config.get(key)` on a `ModuleConfig`. -/
def ModuleConfig.get (c : ModuleConfig) (k : String) : Option String :=
  c.entries.lookup k

/-- Python truthiness of an optional string: `None` and `""` are falsy. -/
def truthy : Option String → Bool
  | none => false
  | some s => s ≠ ""

/-- `TextEmbedding._ARTIFACTS_PATH_KEY`. -/
def artifactsPathKey : String := "artifacts_path"

/-- `TextEmbedding._ARTIFACTS_PATH_DEFAULT`. -/
def artifactsPathDefault : String := "artifacts"

/-- The device string chosen in `load`:
`"xpu" if USE_XPU else "mps" if USE_MPS else "cuda" if cuda.is_available()
else None`. -/
def pick_device (useXpu useMps cudaAvailable : Bool) : Option String :=
  if useXpu then some "xpu"
  else if useMps then some "mps"
  else if cudaAvailable then some "cuda"
  else none

/-- `TextEmbedding.load`: read `artifacts_path` from the config (value-check
that it is truthy), join it with the config directory and dir-check it, pick
a device, construct the model (`mkModel`, opaque), optimize, and wrap the
handle. -/
def load (fs : FS) (config : ModuleConfig) (flags : OptFlags)
    (useXpu cudaAvailable : Bool)
    (ipexFn : SentenceTransformer → Except Err SentenceTransformer)
    (compileFn : SentenceTransformer → Backend → Except Err SentenceTransformer)
    (mkModel : String → Option String → SentenceTransformer) :
    Except Err TextEmbedding :=
  let artifacts_path := config.get artifactsPathKey
  if truthy artifacts_path then
    let joined := pathJoin config.model_path (artifacts_path.getD "")
    if joined ∈ fs.paths then
      let gpu := pick_device useXpu flags.useMps cudaAvailable
      match optimize flags ipexFn compileFn (mkModel joined gpu) with
      | .error e => .error e
      | .ok m => .ok ⟨m⟩
    else .error (.dirCheck "<NLP34197772E>")
  else .error (.valueCheck "<NLP07391618E>")

/-- Drop whitespace at both ends of a character list. -/
def stripChars (l : List Char) : List Char :=
  ((l.dropWhile Char.isWhitespace).reverse.dropWhile Char.isWhitespace).reverse

/-- Python's `str.strip()`. -/
def pyStrip (s : String) : String := ⟨stripChars s.data⟩

/-- `TextEmbedding.save`: value-check the stripped target path, refuse to
overwrite an existing path (`os.makedirs(..., exist_ok=False)`), then create
the directory, default the `artifacts_path` config entry when absent or
blank, serialize the model under that subdirectory, and write the config
record. Returns the outcome together with the resulting filesystem. -/
def save (fs : FS) (saver_config : List (String × String))
    (model_path : String) : Except Err Unit × FS :=
  let model_config_path := model_path
  if pyStrip model_config_path = "" then
    (.error (.valueCheck "<NLP40145207E>"), fs)
  else
    let p := pyStrip model_config_path
    if p ∈ fs.paths then (.error (.fileExists p), fs)
    else
      let ap0 := saver_config.lookup artifactsPathKey
      let ap := if truthy ap0 then ap0.getD "" else artifactsPathDefault
      let fs1 : FS := ⟨fs.paths ++ [p]⟩
      let fs2 : FS := ⟨fs1.paths ++ [pathJoin p ap]⟩
      let fs3 : FS := ⟨fs2.paths ++ [pathJoin p "config.yml"]⟩
      (.ok (), fs3)

/-- JSON values stored in mutable dict cells during the rerank fixup:
strings, numeric scores, integer ids, and references to other dicts
(Python object aliasing). -/
inductive JVal : Type where
  | str (s : String)
  | num (q : ℤ)
  | nat (n : Nat)
  | ref (a : Nat)
  deriving DecidableEq

/-- A mutable dict object: key-value pairs, first match wins on lookup. -/
abbrev JObj : Type := List (String × JVal)

/-- The heap of dict objects; a dict is identified by its address. -/
abbrev Heap : Type := List JObj

/-- Python truthiness of a `JVal`. -/
def jtruthy : JVal → Bool
  | .str s => s ≠ ""
  | .num q => q ≠ 0
  | .nat n => n ≠ 0
  | .ref _ => true

/-- Read the object at address `a`. -/
def heapGet (h : Heap) (a : Nat) : JObj := h.getD a []

/-- Overwrite the object at address `a`. -/
def heapSet (h : Heap) (a : Nat) (o : JObj) : Heap := h.set a o

/-- `get_text` at the heap level: `srd.get("text") or srd.get("_text", "")`
under Python truthiness. -/
def get_text_j (o : JObj) : JVal :=
  match o.lookup "text" with
  | some v => if jtruthy v then v else (o.lookup "_text").getD (.str "")
  | none => (o.lookup "_text").getD (.str "")

/-- The string content of a `JVal` (the rerank path tokenizes strings). -/
def asStr : JVal → String
  | .str s => s
  | _ => ""

/-- Allocation of the fresh result dicts `[a dict with corpus_id and score]`
produced by `semantic_search`: each hit becomes a new object appended to the
heap; returns the new heap and the hit addresses. -/
def alloc_hits (h : Heap) : List Hit → Heap × List Nat
  | [] => (h, [])
  | (i, s) :: rest =>
    let pr := alloc_hits
      (h ++ [[("corpus_id", JVal.nat i), ("score", JVal.num s)]]) rest
    (pr.1, h.length :: pr.2)

/-- Heap-level `semantic_search`: per query, score and sort the documents,
take `top_k`, and allocate the result dicts on the heap. -/
def semantic_search_heap (h : Heap) (q_embs : List Vec)
    (doc_embs : List Vec) (top_k : Nat) : Heap × List (List Nat) :=
  match q_embs with
  | [] => (h, [])
  | q :: qs =>
    let pr := alloc_hits h ((search_hits q doc_embs).take top_k)
    let pr2 := semantic_search_heap pr.1 qs doc_embs top_k
    (pr2.1, pr.2 :: pr2.2)

/-- The fixup body of `run_rerank_queries` on one result dict `x`: pop
`corpus_id`, add `index`, optionally alias the original document record and
attach the extracted text; mutates the object at address `a` in place. -/
def fixup_hit (documents : List Nat) (return_documents return_text : Bool)
    (h : Heap) (a : Nat) : Heap :=
  let o := heapGet h a
  let ci :=
    match o.lookup "corpus_id" with
    | some (.nat i) => i
    | _ => 0
  let o1 := o.eraseP fun kv => kv.1 == "corpus_id"
  let o2 := o1 ++ [("index", JVal.nat ci)]
  let o3 :=
    if return_documents then o2 ++ [("document", JVal.ref (documents.getD ci 0))]
    else o2
  let o4 :=
    if return_text then
      o3 ++ [("text", get_text_j (heapGet h (documents.getD ci 0)))]
    else o3
  heapSet h a o4

/-- The inner fixup loop `for x in r`. -/
def fixup_hits (documents : List Nat) (rd rt : Bool) :
    Heap → List Nat → Heap
  | h, [] => h
  | h, a :: rest =>
    fixup_hits documents rd rt (fixup_hit documents rd rt h a) rest

/-- The outer fixup loop `for r in res`. -/
def fixup_all (documents : List Nat) (rd rt : Bool) :
    Heap → List (List Nat) → Heap
  | h, [] => h
  | h, r :: rs =>
    fixup_all documents rd rt (fixup_hits documents rd rt h r) rs

/-- Heap-level `run_rerank_queries`: the caller's document records live on
the heap and are passed by address; `semantic_search` allocates fresh result
dicts and the fixup loop mutates only those. Returns the final heap and the
per-query result-dict addresses. -/
def run_rerank_queries_heap (normalize : Vec → Vec)
    (m : SentenceTransformer) (h : Heap) (queries : List String)
    (documents : List Nat) (top_n : Option Int) (rd rt : Bool) :
    Heap × Except Err (List (List Nat)) :=
  if queries.length < 1 ∨ documents.length < 1 then (h, .ok [])
  else
    let top_n := effective_top_n top_n documents.length
    let doc_texts := documents.map fun a => asStr (get_text_j (heapGet h a))
    match check_all m (doc_texts ++ queries) with
    | .error e => (h, .error e)
    | .ok () =>
      let doc_embeddings := (doc_texts.map m.encode).map normalize
      let query_embeddings := (queries.map m.encode).map normalize
      let pr := semantic_search_heap h query_embeddings doc_embeddings top_n
      (fixup_all documents rd rt pr.1 pr.2, .ok pr.2)

/-- A concrete model used by witnesses: token count is the byte length of
the text, the limit is 10, and a text's embedding is its length. -/
def wModel : SentenceTransformer := ⟨String.length, 10, fun s => [(s.length : ℤ)]⟩

/-- A concrete model with limit 2, used by witnesses. -/
def wModel2 : SentenceTransformer := ⟨String.length, 2, fun s => [(s.length : ℤ)]⟩

/-- A concrete model with limit 1, used by counterexamples. -/
def cxModel : SentenceTransformer := ⟨String.length, 1, fun _ => [1]⟩

/-- Concrete documents used by witnesses. -/
def wDocs : List SrcDoc := [[("text", "dd")], [("text", "d")]]

/-- A config record with a valid artifacts entry, for counterexamples. -/
def cxConfig : ModuleConfig := ⟨"model_dir", [("artifacts_path", "artifacts")]⟩

/-- A filesystem holding the artifacts directory, for counterexamples. -/
def cxFS : FS := ⟨["model_dir/artifacts"]⟩

theorem check_all_ok (m : SentenceTransformer) :
    ∀ ts : List String,
      (∀ t ∈ ts, m.tokenCount t ≤ m.maxSeqLength) → check_all m ts = .ok ()
  | [], _ => rfl
  | t :: ts, h => by
    have ht : m.tokenCount t ≤ m.maxSeqLength := h t (by simp)
    simp only [check_all, prevent_truncation, if_pos ht]
    exact check_all_ok m ts fun x hx => h x (by simp [hx])

theorem check_all_error (m : SentenceTransformer) :
    ∀ ts : List String,
      (∃ t ∈ ts, ¬ m.tokenCount t ≤ m.maxSeqLength) →
      check_all m ts = .error truncErr
  | [], h => absurd h (by simp)
  | t :: ts, h => by
    by_cases ht : m.tokenCount t ≤ m.maxSeqLength
    · simp only [check_all, prevent_truncation, if_pos ht]
      apply check_all_error m ts
      rcases h with ⟨u, hu, hnu⟩
      rcases List.mem_cons.mp hu with rfl | hu
      · exact absurd ht hnu
      · exact ⟨u, hu, hnu⟩
    · simp [check_all, prevent_truncation, if_neg ht]

/-- C4: with an empty queries list or an empty documents list,
`run_rerank_queries` returns an empty result set without raising and without
invoking the embedding function, and `run_rerank_query` on an empty document
list returns a single result with an empty score list and the query echoed
iff `return_query` is true. -/
theorem rerank_empty_inputs (normalize : Vec → Vec) (m : SentenceTransformer)
    (queries : List String) (documents : List SrcDoc) (top_n : Option Int)
    (rd rq rt : Bool) :
    ((queries = [] ∨ documents = []) →
      run_rerank_queries normalize m queries documents top_n rd rq rt =
        (.ok ⟨[]⟩, [])) ∧
    (∀ query : String,
      run_rerank_query normalize m query [] top_n rd rq rt =
        (.ok ⟨if rq then some query else none, []⟩, [])) := by
  constructor
  · rintro (rfl | rfl) <;> simp [run_rerank_queries]
  · intro query
    simp [run_rerank_query, run_rerank_queries]

/-- C4 witness at a concrete input. -/
theorem rerank_empty_inputs_witness :
    run_rerank_queries (fun v => v) ⟨String.length, 3, fun _ => [1]⟩
        [] [[("text", "d")]] none true true true = (.ok ⟨[]⟩, []) ∧
    run_rerank_query (fun v => v) ⟨String.length, 3, fun _ => [1]⟩
        "q" [] none true true true = (.ok ⟨some "q", []⟩, []) := by
  have h := rerank_empty_inputs (fun v => v) ⟨String.length, 3, fun _ => [1]⟩
    [] [[("text", "d")]] none true true true
  exact ⟨h.1 (Or.inl rfl), h.2 "q"⟩

/-- C5: the comparison text extracted from a document record is its `text`
field when present and non-empty, else its `_text` field when present, else
the empty string; in particular on the three example records. -/
theorem get_text_field_fallback :
    (∀ (srd : SrcDoc) (s : String),
      srd.lookup "text" = some s → s ≠ "" → get_text srd = s) ∧
    (∀ (srd : SrcDoc) (t : String),
      (srd.lookup "text" = none ∨ srd.lookup "text" = some "") →
      srd.lookup "_text" = some t → get_text srd = t) ∧
    (∀ srd : SrcDoc,
      (srd.lookup "text" = none ∨ srd.lookup "text" = some "") →
      srd.lookup "_text" = none → get_text srd = "") ∧
    get_text [("text", "hello")] = "hello" ∧
    get_text [("_text", "fallback")] = "fallback" ∧
    get_text [] = "" := by
  refine ⟨?_, ?_, ?_, by decide, by decide, by decide⟩
  · intro srd s hs hne
    simp [get_text, hs, hne]
  · intro srd t hx ht
    rcases hx with hx | hx <;> simp [get_text, hx, ht]
  · intro srd hx ht
    rcases hx with hx | hx <;> simp [get_text, hx, ht]

/-- C5 witness at a concrete record. -/
theorem get_text_field_fallback_witness :
    get_text [("other", "x"), ("text", "hi")] = "hi" :=
  get_text_field_fallback.1 [("other", "x"), ("text", "hi")] "hi" rfl
    (by decide)

/-- C6: `run_embeddings` on N in-limit texts returns exactly N vectors in
input order, the i-th being the embedding of the i-th text, and a bare
string behaves as the one-element sequence containing it. -/
theorem run_embeddings_order_and_promotion (m : SentenceTransformer)
    (texts : List String)
    (hok : ∀ t ∈ texts, m.tokenCount t ≤ m.maxSeqLength) :
    (∃ r, (run_embeddings m (.inr texts)).1 = .ok r ∧
      r.results.length = texts.length ∧
      ∀ i : Nat, r.results[i]? =
        (texts[i]?).map fun t => ⟨m.encode t⟩) ∧
    (∀ s : String,
      run_embeddings m (.inl s) = run_embeddings m (.inr [s])) := by
  constructor
  · refine ⟨⟨texts.map fun t => ⟨m.encode t⟩⟩, ?_, by simp, ?_⟩
    · simp [run_embeddings, check_all_ok m texts hok]
    · intro i
      simp [List.getElem?_map]
  · intro s
    rfl

/-- C6 witness at a concrete input. -/
theorem run_embeddings_order_and_promotion_witness :
    (∀ t ∈ ["a", "abc"],
      (⟨String.length, 5, fun s => [(s.length : ℤ)]⟩ :
        SentenceTransformer).tokenCount t ≤ 5) ∧
    ((∃ r, (run_embeddings ⟨String.length, 5, fun s => [(s.length : ℤ)]⟩
        (.inr ["a", "abc"])).1 = .ok r ∧
      r.results.length = 2 ∧
      ∀ i : Nat, r.results[i]? = ((["a", "abc"] : List String)[i]?).map
        fun t => ⟨[(t.length : ℤ)]⟩) ∧
     (∀ s : String,
      run_embeddings ⟨String.length, 5, fun s => [(s.length : ℤ)]⟩ (.inl s) =
        run_embeddings ⟨String.length, 5, fun s => [(s.length : ℤ)]⟩
          (.inr [s]))) :=
  ⟨by decide, run_embeddings_order_and_promotion
    ⟨String.length, 5, fun s => [(s.length : ℤ)]⟩ ["a", "abc"] (by decide)⟩

theorem length_search_hits (q : Vec) (docs : List Vec) :
    (search_hits q docs).length = docs.length := by
  simp [search_hits]

theorem sorted_search_hits (q : Vec) (docs : List Vec) :
    List.Sorted hitLE (search_hits q docs) :=
  List.sorted_insertionSort hitLE _

/-- C7: `run_sentence_similarity` on in-limit inputs returns exactly one
score per candidate, in candidate order, each being the library cosine
similarity of the source's embedding and that candidate's embedding. -/
theorem run_sentence_similarity_scores (cosSim : Vec → Vec → ℤ)
    (m : SentenceTransformer) (source_sentence : String)
    (sentences : List String)
    (hsrc : m.tokenCount source_sentence ≤ m.maxSeqLength)
    (hok : ∀ t ∈ sentences, m.tokenCount t ≤ m.maxSeqLength) :
    ∃ r, (run_sentence_similarity cosSim m source_sentence sentences).1 =
        .ok r ∧
      r.scores.length = sentences.length ∧
      ∀ i : Nat, r.scores[i]? = (sentences[i]?).map
        fun c => cosSim (m.encode source_sentence) (m.encode c) := by
  refine ⟨⟨sentences.map fun c =>
    cosSim (m.encode source_sentence) (m.encode c)⟩, ?_, by simp, ?_⟩
  · simp [run_sentence_similarity, prevent_truncation, if_pos hsrc,
      check_all_ok m sentences hok, cos_sim_rows]
  · intro i
    simp [List.getElem?_map]

/-- C7 witness at a concrete input. -/
theorem run_sentence_similarity_scores_witness :
    ((⟨String.length, 5, fun s => [(s.length : ℤ)]⟩ :
        SentenceTransformer).tokenCount "src" ≤ 5) ∧
    (∀ t ∈ ["a", "bc"],
      (⟨String.length, 5, fun s => [(s.length : ℤ)]⟩ :
        SentenceTransformer).tokenCount t ≤ 5) ∧
    ∃ r, (run_sentence_similarity dot_score
        ⟨String.length, 5, fun s => [(s.length : ℤ)]⟩ "src" ["a", "bc"]).1 =
        .ok r ∧
      r.scores.length = 2 ∧
      ∀ i : Nat, r.scores[i]? = ((["a", "bc"] : List String)[i]?).map
        fun c => dot_score [(3 : ℤ)] [(c.length : ℤ)] :=
  ⟨by decide, by decide, run_sentence_similarity_scores dot_score
    ⟨String.length, 5, fun s => [(s.length : ℤ)]⟩ "src" ["a", "bc"]
    (by decide) (by decide)⟩

/-- C3: on non-empty queries and documents with all texts in limit,
`run_rerank_queries` returns one result per query; each result's score list
has length `min (effective top_n) (number of documents)` — all documents
when `top_n` is unset or non-positive, `min top_n documents` when positive —
is never longer than the document count, and is sorted in non-increasing
score order. -/
theorem rerank_queries_shape (normalize : Vec → Vec) (m : SentenceTransformer)
    (queries : List String) (documents : List SrcDoc) (top_n : Option Int)
    (rd rq rt : Bool)
    (hq : queries ≠ []) (hd : documents ≠ [])
    (hok : ∀ t ∈ documents.map get_text ++ queries,
      m.tokenCount t ≤ m.maxSeqLength) :
    ∃ p, (run_rerank_queries normalize m queries documents top_n rd rq rt).1 =
        .ok p ∧
      p.results.length = queries.length ∧
      ∀ r ∈ p.results,
        r.scores.length =
          min (effective_top_n top_n documents.length) documents.length ∧
        r.scores.length ≤ documents.length ∧
        ((top_n = none ∨ ∃ k, top_n = some k ∧ k < 1) →
          r.scores.length = documents.length) ∧
        (∀ k : Int, top_n = some k → 1 ≤ k →
          r.scores.length = min k.toNat documents.length) ∧
        List.Sorted (fun a b : RerankScore => b.score ≤ a.score) r.scores := by
  have hcond : ¬(queries.length < 1 ∨ documents.length < 1) := by
    push_neg
    exact ⟨List.length_pos.mpr hq, List.length_pos.mpr hd⟩
  simp only [run_rerank_queries, if_neg hcond, check_all_ok m _ hok]
  refine ⟨_, rfl, ?_, ?_⟩
  · simp [semantic_search]
  · intro r hr
    rcases List.mem_map.mp hr with ⟨pq, hp, rfl⟩
    have hmem := List.getElem?_mem (List.mem_enum_iff_getElem?.mp hp)
    simp only [semantic_search] at hmem
    rcases List.mem_map.mp hmem with ⟨q, _, hq2⟩
    simp only [← hq2, List.length_map, List.length_take, length_search_hits]
    refine ⟨trivial, Nat.min_le_right _ _, ?_, ?_, ?_⟩
    · rintro (rfl | ⟨k, rfl, hk⟩)
      · simp [effective_top_n]
      · simp [effective_top_n, if_pos hk]
    · rintro k rfl hk
      simp [effective_top_n, Int.not_lt.mpr hk]
    · refine List.pairwise_map.mpr ?_
      exact List.Pairwise.sublist (List.take_sublist _ _)
        (sorted_search_hits q _)

/-- C3 witness at a concrete input. -/
theorem rerank_queries_shape_witness :
    (["q"] : List String) ≠ [] ∧ wDocs ≠ [] ∧
    (∀ t ∈ wDocs.map get_text ++ ["q"],
      wModel.tokenCount t ≤ wModel.maxSeqLength) ∧
    ∃ p, (run_rerank_queries (fun v => v) wModel ["q"] wDocs (some 1)
        true true true).1 = .ok p ∧
      p.results.length = (["q"] : List String).length ∧
      ∀ r ∈ p.results,
        r.scores.length =
          min (effective_top_n (some 1) wDocs.length) wDocs.length ∧
        r.scores.length ≤ wDocs.length ∧
        ((some (1 : Int) = none ∨ ∃ k, some (1 : Int) = some k ∧ k < 1) →
          r.scores.length = wDocs.length) ∧
        (∀ k : Int, some (1 : Int) = some k → 1 ≤ k →
          r.scores.length = min k.toNat wDocs.length) ∧
        List.Sorted (fun a b : RerankScore => b.score ≤ a.score) r.scores :=
  ⟨by decide, by decide, by decide,
    rerank_queries_shape (fun v => v) wModel ["q"] wDocs (some 1)
      true true true (by decide) (by decide) (by decide)⟩

/-- C1 (amended): for each text-taking operation, when some text argument
exceeds the model's maximum sequence length the truncation value-check error
is raised and the embedding function is never invoked (the encoder log is
empty), and when every text is within the limit the truncation guard raises
nothing; for the two rerank operations this holds once the empty-input early
return does not apply (non-empty queries and documents). -/
theorem truncation_guard (cosSim : Vec → Vec → ℤ) (normalize : Vec → Vec)
    (m : SentenceTransformer) (text : String) (texts : List String)
    (source : String) (sources sentences : List String)
    (queries : List String) (documents : List SrcDoc) (query : String)
    (top_n : Option Int) (rd rq rt : Bool) :
    (¬ m.tokenCount text ≤ m.maxSeqLength →
      run_embedding m text = (.error truncErr, [])) ∧
    (m.tokenCount text ≤ m.maxSeqLength →
      (run_embedding m text).1 = .ok ⟨m.encode text⟩) ∧
    ((∃ t ∈ texts, ¬ m.tokenCount t ≤ m.maxSeqLength) →
      run_embeddings m (.inr texts) = (.error truncErr, [])) ∧
    ((∀ t ∈ texts, m.tokenCount t ≤ m.maxSeqLength) →
      ∃ r, (run_embeddings m (.inr texts)).1 = .ok r) ∧
    ((∃ t ∈ source :: sentences, ¬ m.tokenCount t ≤ m.maxSeqLength) →
      run_sentence_similarity cosSim m source sentences =
        (.error truncErr, [])) ∧
    ((∀ t ∈ source :: sentences, m.tokenCount t ≤ m.maxSeqLength) →
      ∃ r, (run_sentence_similarity cosSim m source sentences).1 = .ok r) ∧
    ((∃ t ∈ sources ++ sentences, ¬ m.tokenCount t ≤ m.maxSeqLength) →
      run_sentence_similarities cosSim m sources sentences =
        (.error truncErr, [])) ∧
    ((∀ t ∈ sources ++ sentences, m.tokenCount t ≤ m.maxSeqLength) →
      ∃ r, (run_sentence_similarities cosSim m sources sentences).1 =
        .ok r) ∧
    (queries ≠ [] → documents ≠ [] →
      (∃ t ∈ documents.map get_text ++ queries,
        ¬ m.tokenCount t ≤ m.maxSeqLength) →
      run_rerank_queries normalize m queries documents top_n rd rq rt =
        (.error truncErr, [])) ∧
    ((∀ t ∈ documents.map get_text ++ queries,
        m.tokenCount t ≤ m.maxSeqLength) →
      ∃ p, (run_rerank_queries normalize m queries documents top_n
        rd rq rt).1 = .ok p) ∧
    (documents ≠ [] →
      (∃ t ∈ documents.map get_text ++ [query],
        ¬ m.tokenCount t ≤ m.maxSeqLength) →
      run_rerank_query normalize m query documents top_n rd rq rt =
        (.error truncErr, [])) ∧
    ((∀ t ∈ documents.map get_text ++ [query],
        m.tokenCount t ≤ m.maxSeqLength) →
      ∃ r, (run_rerank_query normalize m query documents top_n
        rd rq rt).1 = .ok r) := by
  refine ⟨?_, ?_, ?_, ?_, ?_, ?_, ?_, ?_, ?_, ?_, ?_, ?_⟩
  · intro h
    simp [run_embedding, prevent_truncation, if_neg h]
  · intro h
    simp [run_embedding, prevent_truncation, if_pos h]
  · intro hex
    simp [run_embeddings, check_all_error m texts hex]
  · intro hall
    refine ⟨⟨texts.map fun t => ⟨m.encode t⟩⟩, ?_⟩
    simp [run_embeddings, check_all_ok m texts hall]
  · rintro ⟨t, ht, hnt⟩
    rcases List.mem_cons.mp ht with rfl | ht
    · simp [run_sentence_similarity, prevent_truncation, if_neg hnt]
    · by_cases hs : m.tokenCount source ≤ m.maxSeqLength
      · simp [run_sentence_similarity, prevent_truncation, if_pos hs,
          check_all_error m sentences ⟨t, ht, hnt⟩]
      · simp [run_sentence_similarity, prevent_truncation, if_neg hs]
  · intro hall
    refine ⟨⟨(sentences.map m.encode).map
      (cosSim (m.encode source))⟩, ?_⟩
    simp [run_sentence_similarity, prevent_truncation,
      if_pos (hall source (by simp)),
      check_all_ok m sentences fun t ht => hall t (by simp [ht]),
      cos_sim_rows]
  · rintro ⟨t, ht, hnt⟩
    rcases List.mem_append.mp ht with ht | ht
    · simp [run_sentence_similarities,
        check_all_error m sources ⟨t, ht, hnt⟩]
    · by_cases hs : check_all m sources = .ok ()
      · simp [run_sentence_similarities, hs,
          check_all_error m sentences ⟨t, ht, hnt⟩]
      · have : ∃ u ∈ sources, ¬ m.tokenCount u ≤ m.maxSeqLength := by
          by_contra hc
          push_neg at hc
          exact hs (check_all_ok m sources fun u hu => hc u hu)
        simp [run_sentence_similarities, check_all_error m sources this]
  · intro hall
    refine ⟨⟨(cos_sim_rows cosSim (sources.map m.encode)
      (sentences.map m.encode)).map SentenceScores.mk⟩, ?_⟩
    simp [run_sentence_similarities,
      check_all_ok m sources fun t ht => hall t (by simp [ht]),
      check_all_ok m sentences fun t ht => hall t (by simp [ht])]
  · intro hq hd hex
    have hc : ¬(queries.length < 1 ∨ documents.length < 1) := by
      push_neg
      exact ⟨List.length_pos.mpr hq, List.length_pos.mpr hd⟩
    simp only [run_rerank_queries, if_neg hc, check_all_error m _ hex]
  · intro hall
    by_cases hc : queries.length < 1 ∨ documents.length < 1
    · refine ⟨⟨[]⟩, ?_⟩
      simp only [run_rerank_queries, if_pos hc]
    · simp only [run_rerank_queries, if_neg hc, check_all_ok m _ hall]
      exact ⟨_, rfl⟩
  · intro hd hex
    have hc : ¬(([query] : List String).length < 1 ∨
        documents.length < 1) := by
      push_neg
      exact ⟨by simp, List.length_pos.mpr hd⟩
    simp only [run_rerank_query, run_rerank_queries, if_neg hc,
      check_all_error m _ hex]
  · intro hall
    by_cases hc : ([query] : List String).length < 1 ∨
        documents.length < 1
    · simp only [run_rerank_query, run_rerank_queries, if_pos hc]
      exact ⟨_, rfl⟩
    · simp only [run_rerank_query, run_rerank_queries, if_neg hc,
        check_all_ok m _ hall]
      exact ⟨_, rfl⟩

/-- C1 counterexample: `run_rerank_query` on an over-limit query with an
empty document list returns successfully instead of raising the
value-validation error the claim demands for every over-limit text
argument. -/
theorem truncation_guard_cex :
    cxModel.maxSeqLength < cxModel.tokenCount "ab" ∧
    run_rerank_query (fun v => v) cxModel "ab" [] none true true true =
      (.ok ⟨some "ab", []⟩, []) := by decide

/-- C1 witness at concrete inputs. -/
theorem truncation_guard_witness :
    (¬ wModel2.tokenCount "abc" ≤ wModel2.maxSeqLength) ∧
    run_embedding wModel2 "abc" = (.error truncErr, []) ∧
    (wModel2.tokenCount "a" ≤ wModel2.maxSeqLength) ∧
    (run_embedding wModel2 "a").1 = .ok ⟨wModel2.encode "a"⟩ :=
  ⟨by decide,
   (truncation_guard dot_score (fun v => v) wModel2 "abc" [] "" [] [] []
      [] "" none true true true).1 (by decide),
   by decide,
   (truncation_guard dot_score (fun v => v) wModel2 "a" [] "" [] [] []
      [] "" none true true true).2.1 (by decide)⟩

/-- C2 (amended): an exception raised by the ahead-of-time compilation
(`torch.compile`) is always caught, and `_optimize` succeeds whenever the
vendor graph optimization (`ipex.optimize`) is disabled or itself succeeds;
an exception from `ipex.optimize` itself is not caught. -/
theorem optimize_best_effort (flags : OptFlags)
    (ipexFn : SentenceTransformer → Except Err SentenceTransformer)
    (compileFn : SentenceTransformer → Backend →
      Except Err SentenceTransformer)
    (model : SentenceTransformer)
    (h : flags.ipexOptimize = false ∨ ∃ m1, ipexFn model = .ok m1) :
    ∃ m2, optimize flags ipexFn compileFn model = .ok m2 := by
  have hstep : ∃ pb, (if flags.ipexOptimize then
      (ipexFn model).map (fun m1 => (m1, Backend.ipex))
      else if flags.useMps then
        (.ok (model, Backend.mps) : Except Err (SentenceTransformer × Backend))
      else .ok (model, Backend.inductor)) = .ok pb := by
    rcases h with h | ⟨m1, hm⟩
    · rw [h]
      by_cases hmps : flags.useMps <;> simp [hmps]
    · by_cases hi : flags.ipexOptimize
      · refine ⟨(m1, Backend.ipex), ?_⟩
        rw [if_pos hi, hm]
        rfl
      · by_cases hmps : flags.useMps <;> simp [hi, hmps]
  rcases hstep with ⟨⟨m1, b⟩, hstep⟩
  simp only [optimize, hstep]
  by_cases hpc : flags.pt2Compile
  · simp only [if_pos hpc]
    cases hcf : compileFn m1 b
    · exact ⟨_, rfl⟩
    · exact ⟨_, rfl⟩
  · simp only [if_neg hpc]
    exact ⟨_, rfl⟩

/-- C2 counterexample: with the vendor graph optimization enabled and
raising, `load` raises, so an optimization failure can make load fail. -/
theorem optimize_best_effort_cex :
    load cxFS cxConfig ⟨true, false, false⟩ false false
      (fun _ => .error (.exn "ipex boom")) (fun m _ => .ok m)
      (fun _ _ => wModel) = .error (.exn "ipex boom") := rfl

/-- C2 witness: the compilation step raising is caught and optimize
succeeds. -/
theorem optimize_best_effort_witness :
    ((⟨false, false, true⟩ : OptFlags).ipexOptimize = false ∨
      ∃ m1, (fun _ : SentenceTransformer =>
        (.error (.exn "no ipex") : Except Err SentenceTransformer)) wModel =
          .ok m1) ∧
    ∃ m2, optimize ⟨false, false, true⟩
      (fun _ => .error (.exn "no ipex"))
      (fun _ _ => .error (.exn "compile failed")) wModel = .ok m2 :=
  ⟨Or.inl rfl, optimize_best_effort ⟨false, false, true⟩
    (fun _ => .error (.exn "no ipex"))
    (fun _ _ => .error (.exn "compile failed")) wModel (Or.inl rfl)⟩

/-- C8: `save` into an already-existing target path fails with an error and
leaves the filesystem unchanged: no directory, artifacts, or config record
is written. -/
theorem save_no_overwrite (fs : FS) (saver_config : List (String × String))
    (model_path : String) (h : pyStrip model_path ∈ fs.paths) :
    (∃ e, (save fs saver_config model_path).1 = .error e) ∧
    (save fs saver_config model_path).2 = fs := by
  by_cases hb : pyStrip model_path = ""
  · exact ⟨⟨.valueCheck "<NLP40145207E>", by simp [save, hb]⟩,
      by simp [save, hb]⟩
  · exact ⟨⟨.fileExists (pyStrip model_path), by simp [save, hb, h]⟩,
      by simp [save, hb, h]⟩

/-- C8 witness at a concrete input. -/
theorem save_no_overwrite_witness :
    pyStrip "d" ∈ (⟨["d"]⟩ : FS).paths ∧
    ((∃ e, (save ⟨["d"]⟩ [] "d").1 = .error e) ∧
      (save ⟨["d"]⟩ [] "d").2 = ⟨["d"]⟩) :=
  ⟨by decide, save_no_overwrite ⟨["d"]⟩ [] "d" (by decide)⟩

/-- C9: `load` fails with the missing-config-key value error when the
`artifacts_path` entry is absent (or blank, which Python treats the same),
and with the directory-check error when the resolved artifacts directory
does not exist; in both cases no handle is produced. -/
theorem load_config_errors (fs : FS) (config : ModuleConfig)
    (flags : OptFlags) (useXpu cudaAvailable : Bool)
    (ipexFn : SentenceTransformer → Except Err SentenceTransformer)
    (compileFn : SentenceTransformer → Backend →
      Except Err SentenceTransformer)
    (mkModel : String → Option String → SentenceTransformer) :
    ((config.get artifactsPathKey = none ∨
        config.get artifactsPathKey = some "") →
      load fs config flags useXpu cudaAvailable ipexFn compileFn mkModel =
        .error (.valueCheck "<NLP07391618E>")) ∧
    (∀ ap, config.get artifactsPathKey = some ap → ap ≠ "" →
      pathJoin config.model_path ap ∉ fs.paths →
      load fs config flags useXpu cudaAvailable ipexFn compileFn mkModel =
        .error (.dirCheck "<NLP34197772E>")) := by
  constructor
  · rintro (h | h) <;> simp [load, truthy, h]
  · intro ap hap hne hnotin
    simp [load, truthy, hap, hne, hnotin]

/-- C9 witness at concrete inputs. -/
theorem load_config_errors_witness :
    ((⟨"model_dir", []⟩ : ModuleConfig).get artifactsPathKey = none ∨
      (⟨"model_dir", []⟩ : ModuleConfig).get artifactsPathKey = some "") ∧
    load ⟨[]⟩ ⟨"model_dir", []⟩ ⟨false, false, false⟩ false false
      (fun m => .ok m) (fun m _ => .ok m) (fun _ _ => wModel) =
      .error (.valueCheck "<NLP07391618E>") ∧
    load ⟨[]⟩ cxConfig ⟨false, false, false⟩ false false
      (fun m => .ok m) (fun m _ => .ok m) (fun _ _ => wModel) =
      .error (.dirCheck "<NLP34197772E>") :=
  ⟨Or.inl rfl,
   (load_config_errors ⟨[]⟩ ⟨"model_dir", []⟩ ⟨false, false, false⟩
      false false (fun m => .ok m) (fun m _ => .ok m)
      (fun _ _ => wModel)).1 (Or.inl rfl),
   (load_config_errors ⟨[]⟩ cxConfig ⟨false, false, false⟩
      false false (fun m => .ok m) (fun m _ => .ok m)
      (fun _ _ => wModel)).2 "artifacts" rfl (by decide) (by decide)⟩

theorem alloc_hits_getElem? (i : Nat) :
    ∀ (hits : List Hit) (h : Heap), i < h.length →
      (alloc_hits h hits).1[i]? = h[i]?
  | [], _, _ => rfl
  | (j, s) :: rest, h, hi => by
    have hlen : i < (h ++
        [[("corpus_id", JVal.nat j), ("score", JVal.num s)]]).length := by
      simp
      omega
    rw [alloc_hits]
    rw [alloc_hits_getElem? i rest _ hlen]
    exact List.getElem?_append_left hi

theorem alloc_hits_addrs_ge :
    ∀ (hits : List Hit) (h : Heap) (a : Nat),
      a ∈ (alloc_hits h hits).2 → h.length ≤ a
  | [], _, _, ha => absurd ha (by simp [alloc_hits])
  | (j, s) :: rest, h, a, ha => by
    rw [alloc_hits] at ha
    rcases List.mem_cons.mp ha with rfl | ha
    · exact le_refl _
    · have := alloc_hits_addrs_ge rest _ a ha
      simp at this
      omega

theorem alloc_hits_length_ge :
    ∀ (hits : List Hit) (h : Heap), h.length ≤ (alloc_hits h hits).1.length
  | [], _ => le_refl _
  | (j, s) :: rest, h => by
    rw [alloc_hits]
    have := alloc_hits_length_ge rest
      (h ++ [[("corpus_id", JVal.nat j), ("score", JVal.num s)]])
    simp at this ⊢
    omega

theorem semantic_search_heap_getElem? (doc_embs : List Vec) (top_k i : Nat) :
    ∀ (q_embs : List Vec) (h : Heap), i < h.length →
      (semantic_search_heap h q_embs doc_embs top_k).1[i]? = h[i]?
  | [], _, _ => rfl
  | q :: qs, h, hi => by
    rw [semantic_search_heap]
    have hi1 : i < (alloc_hits h
        ((search_hits q doc_embs).take top_k)).1.length :=
      lt_of_lt_of_le hi (alloc_hits_length_ge _ h)
    rw [semantic_search_heap_getElem? doc_embs top_k i qs _ hi1]
    exact alloc_hits_getElem? i _ h hi

theorem semantic_search_heap_addrs_ge (doc_embs : List Vec) (top_k : Nat) :
    ∀ (q_embs : List Vec) (h : Heap) (r : List Nat) (a : Nat),
      r ∈ (semantic_search_heap h q_embs doc_embs top_k).2 → a ∈ r →
        h.length ≤ a
  | [], _, _, _, hr, _ => absurd hr (by simp [semantic_search_heap])
  | q :: qs, h, r, a, hr, ha => by
    rw [semantic_search_heap] at hr
    rcases List.mem_cons.mp hr with rfl | hr
    · exact alloc_hits_addrs_ge _ h a ha
    · exact le_trans (alloc_hits_length_ge _ h)
        (semantic_search_heap_addrs_ge doc_embs top_k qs _ r a hr ha)

theorem fixup_hit_getElem? (documents : List Nat) (rd rt : Bool)
    (h : Heap) (a i : Nat) (hne : i ≠ a) :
    (fixup_hit documents rd rt h a)[i]? = h[i]? := by
  simp only [fixup_hit, heapSet]
  exact List.getElem?_set_ne (Ne.symm hne)

theorem fixup_hits_getElem? (documents : List Nat) (rd rt : Bool) (i : Nat) :
    ∀ (addrs : List Nat) (h : Heap), (∀ a ∈ addrs, i ≠ a) →
      (fixup_hits documents rd rt h addrs)[i]? = h[i]?
  | [], _, _ => rfl
  | a :: rest, h, hni => by
    rw [fixup_hits]
    rw [fixup_hits_getElem? documents rd rt i rest _
      fun b hb => hni b (by simp [hb])]
    exact fixup_hit_getElem? documents rd rt h a i (hni a (by simp))

theorem fixup_all_getElem? (documents : List Nat) (rd rt : Bool) (i : Nat) :
    ∀ (rs : List (List Nat)) (h : Heap),
      (∀ r ∈ rs, ∀ a ∈ r, i ≠ a) →
      (fixup_all documents rd rt h rs)[i]? = h[i]?
  | [], _, _ => rfl
  | r :: rest, h, hni => by
    rw [fixup_all]
    rw [fixup_all_getElem? documents rd rt i rest _
      fun r2 hr2 => hni r2 (by simp [hr2])]
    exact fixup_hits_getElem? documents rd rt i r h (hni r (by simp))

/-- C10: `run_rerank_queries` never mutates the caller's document records:
after the call, every document address holds exactly the object it held
before; the corpus_id-to-index renaming and the optional attachment of the
document and text happen only on the freshly allocated result dicts. -/
theorem rerank_frame_effect (normalize : Vec → Vec)
    (m : SentenceTransformer) (h : Heap) (queries : List String)
    (documents : List Nat) (top_n : Option Int) (rd rt : Bool)
    (hdocs : ∀ a ∈ documents, a < h.length) :
    ∀ a ∈ documents,
      (run_rerank_queries_heap normalize m h queries documents top_n
        rd rt).1[a]? = h[a]? := by
  intro a ha
  have hlt : a < h.length := hdocs a ha
  by_cases hc : queries.length < 1 ∨ documents.length < 1
  · simp only [run_rerank_queries_heap, if_pos hc]
  · simp only [run_rerank_queries_heap, if_neg hc]
    cases hch : check_all m ((documents.map fun b =>
        asStr (get_text_j (heapGet h b))) ++ queries) with
    | error e => simp only [hch]
    | ok u =>
      cases u
      simp only [hch]
      rw [fixup_all_getElem? documents rd rt a]
      · exact semantic_search_heap_getElem? _ _ a _ h hlt
      · intro r hr b hb
        have hb2 := semantic_search_heap_addrs_ge _ _ _ h r b hr hb
        omega

/-- C10 witness at a concrete input: two document records on the heap are
byte-identical before and after a rerank call that attaches documents and
text. -/
theorem rerank_frame_effect_witness :
    (∀ a ∈ [0, 1], a <
      ([[("text", JVal.str "dd")], [("text", JVal.str "d")]] : Heap).length) ∧
    ∀ a ∈ [0, 1],
      (run_rerank_queries_heap (fun v => v) wModel
        [[("text", JVal.str "dd")], [("text", JVal.str "d")]]
        ["q"] [0, 1] none true true).1[a]? =
      ([[("text", JVal.str "dd")], [("text", JVal.str "d")]] : Heap)[a]? :=
  ⟨by decide, rerank_frame_effect (fun v => v) wModel
    [[("text", JVal.str "dd")], [("text", JVal.str "d")]]
    ["q"] [0, 1] none true true (by decide)⟩

end CaikitEmbeddings
